import Mathlib

/-!
Shallow embedding of the VirtualCounsellor agent/fleet execution pipeline.

Sources embedded here:
* `src/agentic_layer/base_agent.py` (`BaseAgent.validate_input`,
  `_check_field_availability`, `execute`, `_create_failed_result`,
  `_calculate_confidence_score`)
* `src/agentic_layer/base_fleet_manager.py` (`execute_workflow`,
  `_execute_agents_with_tracing`, `_calculate_fleet_confidence`,
  `_determine_fleet_status`, `_create_failed_result`)
* `src/agentic_layer/college_upskill/college_student_fleet_manager.py`
  (`_validate_fleet_input`, `_create_execution_plan`)
* `src/agentic_layer/college_upskill/agents/profile_analysis_agent.py`
  (`_parse_llm_response`)
* `src/agentic_layer/college_upskill/agents/sub_agents/salary_benchmarking_sub_agent.py`
  (`_clean_json_comments`, `_parse_llm_response`)

Modelling conventions: Python dicts become association lists (the execution
plans used by the code are duplicate-free, so insertion order association
lists coincide with Python dict insert semantics; theorems that rely on this
carry a `Nodup` hypothesis).  Python floats used for confidence scores are
modelled as rationals; `round(x, 2)` is modelled as round-half-to-even at two
decimals, which is Python's rounding mode.  Wall-clock fields
(`processing_time`, timestamps) and tracing metadata are omitted: they carry
no logic.  The LLM call and the langchain structured output parsing are
external collaborators and appear as opaque function parameters.
-/

namespace VC

/-- A Python runtime value, as far as the pipeline inspects one:
`_check_field_availability` looks at `None` and at emptiness of
strings/lists/dicts, and `_create_execution_plan` uses truthiness. -/
inductive PyVal where
  | vnone
  | vbool (b : Bool)
  | vint (n : Int)
  | vstr (s : String)
  | vlist (l : List PyVal)
  | vdict (d : List (String × PyVal))
  | vother

/-- `user_data` and other string-keyed Python dicts. -/
abbrev UserData := List (String × PyVal)

/-- Python dict lookup (`d.get(k)`), first-match on the association list. -/
def lookupField : UserData → String → Option PyVal
  | [], _ => none
  | (k, v) :: rest, f => if k = f then some v else lookupField rest f

/-- `ProcessingStatus` from `config/agent_config.py`. -/
inductive ProcessingStatus where
  | pending
  | processing
  | completed
  | failed
  | skipped
deriving DecidableEq, Repr

/-- `FleetStatus` from `config/agent_config.py`. -/
inductive FleetStatus where
  | initializing
  | executing
  | completed
  | partiallyCompleted
  | failed
deriving DecidableEq, Repr

/-- `AgentResult` from `config/agent_config.py` (wall-clock
`processing_time`, `warnings` and `metadata` omitted: no claim depends on
them and they carry timestamps). -/
structure AgentResult where
  agent_id : String
  agent_name : String
  status : ProcessingStatus
  output_data : List (String × PyVal)
  confidence_score : ℚ
  error_message : Option String := none

/-- Round-half-to-even of a rational to an integer (Python `round`). -/
def roundHalfEven (q : ℚ) : ℤ :=
  let n := ⌊q⌋
  let f := q - n
  if f < 1 / 2 then n
  else if 1 / 2 < f then n + 1
  else if n % 2 = 0 then n else n + 1

/-- Python `round(x, 2)` on the rational model of floats. -/
def roundTo2 (q : ℚ) : ℚ := (roundHalfEven (q * 100) : ℚ) / 100

/-- The sublist of agent results whose status is `COMPLETED` — the
`completed_results` list comprehension used throughout
`base_fleet_manager.py`. -/
def completedOf (rs : List (String × AgentResult)) : List (String × AgentResult) :=
  rs.filter fun p => decide (p.2.status = ProcessingStatus.completed)

/-- Mean of a list of rationals (`sum(...) / len(...)`). -/
def listMean (l : List ℚ) : ℚ := l.sum / (l.length : ℚ)

/-- `BaseFleetManager._calculate_fleet_confidence`
(`base_fleet_manager.py` lines 324-343). -/
def calculate_fleet_confidence (rs : List (String × AgentResult)) : ℚ :=
  if rs.isEmpty then 0
  else
    let comp := completedOf rs
    if comp.isEmpty then 0
    else
      let avg := (comp.map fun p => p.2.confidence_score).sum / (comp.length : ℚ)
      let rate := (comp.length : ℚ) / (rs.length : ℚ)
      roundTo2 (avg * rate)

/-- `BaseFleetManager._determine_fleet_status`
(`base_fleet_manager.py` lines 345-362).  The Python comparison
`completed > total / 2` is float division, modelled in ℚ. -/
def determine_fleet_status (rs : List (String × AgentResult)) : FleetStatus :=
  if rs.isEmpty then FleetStatus.failed
  else
    let c := (completedOf rs).length
    let t := rs.length
    if c = t then FleetStatus.completed
    else if (t : ℚ) / 2 < (c : ℚ) then FleetStatus.partiallyCompleted
    else FleetStatus.failed

/-- The status rule exactly as the specification words it, read as the
ordered case chain: `completed` if all completed; `failed` if
`completed_count == 0`; otherwise `partially_completed` if
`completed_count > total/2`, else `failed`. -/
def claim_fleet_status (completed total : ℕ) : FleetStatus :=
  if completed = total then FleetStatus.completed
  else if completed = 0 then FleetStatus.failed
  else if 2 * completed > total then FleetStatus.partiallyCompleted
  else FleetStatus.failed

theorem length_completedOf_le (rs : List (String × AgentResult)) :
    (completedOf rs).length ≤ rs.length :=
  List.length_filter_le _ rs

/-- C3: For every non-empty agent_results map, `_determine_fleet_status`
computes exactly the case chain of the claim: `completed` iff all agents in
agent_results completed, otherwise `failed` when zero completed, otherwise
`partially_completed` when more than half completed, else `failed`. -/
theorem c3_fleet_status_matches_claim (rs : List (String × AgentResult))
    (hne : rs ≠ []) :
    determine_fleet_status rs
      = claim_fleet_status (completedOf rs).length rs.length := by
  have ht : 0 < rs.length := List.length_pos.mpr hne
  have hce : rs.isEmpty = false := by
    cases rs with
    | nil => exact absurd rfl hne
    | cons a l => rfl
  have hle : (completedOf rs).length ≤ rs.length := length_completedOf_le rs
  unfold determine_fleet_status claim_fleet_status
  rw [hce]
  simp only [Bool.false_eq_true, if_false]
  by_cases hct : (completedOf rs).length = rs.length
  · simp [hct]
  · rw [if_neg hct, if_neg hct]
    have hiff : ((rs.length : ℚ) / 2 < ((completedOf rs).length : ℚ))
        ↔ 2 * (completedOf rs).length > rs.length := by
      rw [div_lt_iff₀ (by norm_num : (0 : ℚ) < 2)]
      constructor
      · intro h
        have : (rs.length : ℚ) < ((2 * (completedOf rs).length : ℕ) : ℚ) := by
          push_cast
          linarith
        exact_mod_cast this
      · intro h
        have : (rs.length : ℚ) < ((2 * (completedOf rs).length : ℕ) : ℚ) := by
          exact_mod_cast h
        push_cast at this
        linarith
    by_cases hc0 : (completedOf rs).length = 0
    · have hno : ¬ ((rs.length : ℚ) / 2 < ((completedOf rs).length : ℚ)) := by
        rw [hiff, hc0]
        omega
      rw [if_pos hc0, if_neg hno]
    · rw [if_neg hc0]
      by_cases hgt : 2 * (completedOf rs).length > rs.length
      · rw [if_pos (hiff.mpr hgt), if_pos hgt]
      · rw [if_neg (fun h => hgt (hiff.mp h)), if_neg hgt]

/-- A concrete completed agent result used by witnesses. -/
def sampleCompletedA : AgentResult :=
  { agent_id := "profile_analysis", agent_name := "Profile Analysis Agent",
    status := ProcessingStatus.completed, output_data := [],
    confidence_score := 9/10 }

/-- A concrete failed agent result used by witnesses. -/
def sampleFailedB : AgentResult :=
  { agent_id := "market_intelligence", agent_name := "Market Intelligence Agent",
    status := ProcessingStatus.failed, output_data := [],
    confidence_score := 0,
    error_message := some "Processing error: model unavailable" }

/-- A concrete completed agent result used by witnesses. -/
def sampleCompletedC : AgentResult :=
  { agent_id := "skill_development_strategist",
    agent_name := "Skill Development Strategist",
    status := ProcessingStatus.completed, output_data := [],
    confidence_score := 8/10 }

/-- A concrete 3-agent result map with 2 completed, 1 failed. -/
def sampleResults3 : List (String × AgentResult) :=
  [("profile_analysis", sampleCompletedA),
   ("market_intelligence", sampleFailedB),
   ("skill_development_strategist", sampleCompletedC)]

/-- Witness for C3 at a concrete 3-agent result map with 2 completed. -/
theorem c3_witness :
    sampleResults3 ≠ []
    ∧ determine_fleet_status sampleResults3
        = claim_fleet_status (completedOf sampleResults3).length sampleResults3.length :=
  ⟨List.cons_ne_nil _ _,
   c3_fleet_status_matches_claim sampleResults3 (List.cons_ne_nil _ _)⟩

/-- C2: For every non-empty agent_results map, `overall_confidence` as
computed by `_calculate_fleet_confidence` is 0 when no agent completed, and
otherwise `round(mean(confidence of completed) * completed/total, 2)`. -/
theorem c2_overall_confidence_formula (rs : List (String × AgentResult))
    (hne : rs ≠ []) :
    (completedOf rs = [] → calculate_fleet_confidence rs = 0)
    ∧ (completedOf rs ≠ [] →
        calculate_fleet_confidence rs
          = roundTo2 (listMean ((completedOf rs).map fun p => p.2.confidence_score)
              * (((completedOf rs).length : ℚ) / (rs.length : ℚ)))) := by
  have hce : rs.isEmpty = false := by
    cases rs with
    | nil => exact absurd rfl hne
    | cons a l => rfl
  constructor
  · intro hc
    unfold calculate_fleet_confidence
    rw [hce, hc]
    rfl
  · intro hc
    have hcc : (completedOf rs).isEmpty = false := by
      cases h : completedOf rs with
      | nil => exact absurd h hc
      | cons a l => rfl
    unfold calculate_fleet_confidence
    simp only [hce, hcc, Bool.false_eq_true, if_false]
    unfold listMean
    rw [List.length_map]

/-- Witness for C2 at a concrete 3-agent result map with 2 completed. -/
theorem c2_witness :
    sampleResults3 ≠ []
    ∧ completedOf sampleResults3 ≠ []
    ∧ calculate_fleet_confidence sampleResults3
        = roundTo2 (listMean ((completedOf sampleResults3).map fun p => p.2.confidence_score)
            * (((completedOf sampleResults3).length : ℚ) / (sampleResults3.length : ℚ))) :=
  ⟨List.cons_ne_nil _ _, List.cons_ne_nil _ _,
   (c2_overall_confidence_formula sampleResults3 (List.cons_ne_nil _ _)).2
     (List.cons_ne_nil _ _)⟩

/-- The `AgentInput` TypedDict from `config/agent_config.py`
(`session_metadata` omitted: it only carries tracing run ids). -/
structure AgentInputM where
  user_data : UserData
  conversation_context : UserData
  previous_agent_outputs : List (String × AgentResult)

/-- A fleet's registered agents (`self.agents` dict): an agent id maps to
the behaviour of its `execute` method, or to nothing when the id is not
registered. -/
abbrev AgentMap := String → Option (AgentInputM → AgentResult)

/-- The loop body of `BaseFleetManager._execute_agents_with_tracing`
(`base_fleet_manager.py` lines 189-282), as a trace: one entry
`(agent_id, previous_outputs passed, result)` per agent actually executed.
Ids missing from `self.agents` are skipped (`continue`); a result is added
to `previous_outputs` for later agents only when its status is `COMPLETED`;
execution always continues to the next planned agent. -/
def execute_agents (agents : AgentMap) (ud ctx : UserData) :
    List String → List (String × AgentResult) →
    List (String × List (String × AgentResult) × AgentResult)
  | [], _ => []
  | aid :: rest, prev =>
    match agents aid with
    | none => execute_agents agents ud ctx rest prev
    | some run =>
      let r := run { user_data := ud, conversation_context := ctx,
                     previous_agent_outputs := prev }
      let prev2 := if r.status = ProcessingStatus.completed
                   then prev ++ [(aid, r)] else prev
      (aid, prev, r) :: execute_agents agents ud ctx rest prev2

/-- The `agent_results` dict built by the loop: trace entries without the
passed `previous_outputs` snapshot. -/
def results_of (tr : List (String × List (String × AgentResult) × AgentResult)) :
    List (String × AgentResult) :=
  tr.map fun s => (s.1, s.2.2)

theorem execute_agents_prev_invariant (agents : AgentMap) (ud ctx : UserData) :
    ∀ (plan : List String) (prev : List (String × AgentResult)) (i : ℕ)
      (s : String × List (String × AgentResult) × AgentResult),
      (execute_agents agents ud ctx plan prev)[i]? = some s →
      s.2.1 = prev ++ completedOf (results_of ((execute_agents agents ud ctx plan prev).take i)) := by
  intro plan
  induction plan with
  | nil =>
    intro prev i s hs
    simp [execute_agents] at hs
  | cons aid rest ih =>
    intro prev i s hs
    cases hreg : agents aid with
    | none =>
      have htr : execute_agents agents ud ctx (aid :: rest) prev
          = execute_agents agents ud ctx rest prev := by
        simp [execute_agents, hreg]
      rw [htr] at hs ⊢
      exact ih prev i s hs
    | some run =>
      have htr : execute_agents agents ud ctx (aid :: rest) prev
          = (aid, prev,
              run { user_data := ud, conversation_context := ctx,
                    previous_agent_outputs := prev })
            :: execute_agents agents ud ctx rest
                 (if (run { user_data := ud, conversation_context := ctx,
                            previous_agent_outputs := prev }).status
                     = ProcessingStatus.completed
                  then prev ++ [(aid,
                        run { user_data := ud, conversation_context := ctx,
                              previous_agent_outputs := prev })]
                  else prev) := by
        simp [execute_agents, hreg]
      rw [htr] at hs ⊢
      set r := run { user_data := ud, conversation_context := ctx,
                     previous_agent_outputs := prev } with hr
      cases i with
      | zero =>
        simp only [List.getElem?_cons_zero, Option.some_inj] at hs
        rw [← hs]
        simp [results_of, completedOf]
      | succ j =>
        rw [List.getElem?_cons_succ] at hs
        have := ih (if r.status = ProcessingStatus.completed
                    then prev ++ [(aid, r)] else prev) j s hs
        rw [this]
        by_cases hst : r.status = ProcessingStatus.completed
        · simp [hst, List.take_succ_cons, results_of, completedOf,
            List.filter_cons, List.append_assoc]
        · simp [hst, List.take_succ_cons, results_of, completedOf,
            List.filter_cons]

theorem execute_agents_fst (agents : AgentMap) (ud ctx : UserData) :
    ∀ (plan : List String) (prev : List (String × AgentResult)),
      (execute_agents agents ud ctx plan prev).map (fun s => s.1)
        = plan.filter fun a => (agents a).isSome := by
  intro plan
  induction plan with
  | nil => intro prev; simp [execute_agents]
  | cons aid rest ih =>
    intro prev
    cases hreg : agents aid with
    | none => simp [execute_agents, hreg, List.filter_cons, ih]
    | some run => simp [execute_agents, hreg, List.filter_cons, ih]

theorem mem_of_getElem_opt {α : Type} :
    ∀ (l : List α) (i : ℕ) (a : α), l[i]? = some a → a ∈ l
  | [], i, a, h => by simp at h
  | b :: t, 0, a, h => by
    simp only [List.getElem?_cons_zero, Option.some_inj] at h
    simp [h]
  | b :: t, i + 1, a, h => by
    rw [List.getElem?_cons_succ] at h
    exact List.mem_cons_of_mem _ (mem_of_getElem_opt t i a h)

/-- C1: In `_execute_agents_with_tracing`, every executed step receives as
`previous_agent_outputs` exactly the completed subset of the results of
earlier planned agents; every executed agent's result (failed ones
included) is recorded in `agent_results`; and the executed ids are all the
registered planned ids, in order, so a failure never aborts the loop. -/
theorem c1_previous_outputs_threading (agents : AgentMap) (ud ctx : UserData)
    (plan : List String) (_hnd : plan.Nodup) (i : ℕ)
    (s : String × List (String × AgentResult) × AgentResult)
    (h : (execute_agents agents ud ctx plan [])[i]? = some s) :
    s.2.1 = completedOf (results_of ((execute_agents agents ud ctx plan []).take i))
    ∧ (s.1, s.2.2) ∈ results_of (execute_agents agents ud ctx plan [])
    ∧ (execute_agents agents ud ctx plan []).map (fun s => s.1)
        = plan.filter fun a => (agents a).isSome := by
  refine ⟨?_, ?_, execute_agents_fst agents ud ctx plan []⟩
  · have := execute_agents_prev_invariant agents ud ctx plan [] i s h
    simpa using this
  · have hmem : s ∈ execute_agents agents ud ctx plan [] :=
      mem_of_getElem_opt _ i s h
    exact List.mem_map.mpr ⟨s, hmem, rfl⟩

/-- The behaviours of three concrete agents used by witnesses: the first
and third always complete, the second always fails. -/
def wRunA : AgentInputM → AgentResult := fun _ => sampleCompletedA

/-- See `wRunA`. -/
def wRunB : AgentInputM → AgentResult := fun _ => sampleFailedB

/-- See `wRunA`. -/
def wRunC : AgentInputM → AgentResult := fun _ => sampleCompletedC

/-- A concrete registered-agents map for witnesses. -/
def wAgents : AgentMap := fun a =>
  if a = "profile_analysis" then some wRunA
  else if a = "market_intelligence" then some wRunB
  else if a = "skill_development_strategist" then some wRunC
  else none

/-- A concrete execution plan for witnesses. -/
def wPlan : List String :=
  ["profile_analysis", "market_intelligence", "skill_development_strategist"]

/-- Witness for C1: in the concrete 3-agent run, the third agent receives
only the completed first agent's result (the failed second agent's result
is recorded but not threaded forward). -/
theorem c1_witness :
    wPlan.Nodup
    ∧ (execute_agents wAgents [] [] wPlan [])[2]?
        = some ("skill_development_strategist",
                [("profile_analysis", sampleCompletedA)], sampleCompletedC)
    ∧ ([("profile_analysis", sampleCompletedA)]
        = completedOf (results_of ((execute_agents wAgents [] [] wPlan []).take 2))
      ∧ ("skill_development_strategist", sampleCompletedC)
          ∈ results_of (execute_agents wAgents [] [] wPlan [])
      ∧ (execute_agents wAgents [] [] wPlan []).map (fun s => s.1)
          = wPlan.filter fun a => (wAgents a).isSome) :=
  ⟨by decide, rfl,
   c1_previous_outputs_threading wAgents [] [] wPlan (by decide) 2
     ("skill_development_strategist",
      [("profile_analysis", sampleCompletedA)], sampleCompletedC) rfl⟩

/-- C10: A planned agent id that is not registered in the fleet's agents
map is silently skipped by the execution loop: no result is recorded for
it, the executed ids are exactly the registered planned ids, and when every
executed agent completes, `_determine_fleet_status` reports `completed`
even though a planned agent was skipped. -/
theorem c10_unregistered_agent_silently_skipped (agents : AgentMap)
    (ud ctx : UserData) (plan : List String) (b : String)
    (_hb : b ∈ plan) (hnone : agents b = none)
    (hall : ∀ p ∈ results_of (execute_agents agents ud ctx plan []),
      p.2.status = ProcessingStatus.completed)
    (hne : execute_agents agents ud ctx plan [] ≠ []) :
    b ∉ (results_of (execute_agents agents ud ctx plan [])).map (fun p => p.1)
    ∧ (execute_agents agents ud ctx plan []).map (fun s => s.1)
        = plan.filter (fun a => (agents a).isSome)
    ∧ determine_fleet_status (results_of (execute_agents agents ud ctx plan []))
        = FleetStatus.completed := by
  have hfst := execute_agents_fst agents ud ctx plan []
  have hids : (results_of (execute_agents agents ud ctx plan [])).map (fun p => p.1)
      = (execute_agents agents ud ctx plan []).map (fun s => s.1) := by
    simp [results_of]
  refine ⟨?_, hfst, ?_⟩
  · rw [hids, hfst]
    intro hmem
    have := (List.mem_filter.mp hmem).2
    rw [hnone] at this
    simp at this
  · have hrs : results_of (execute_agents agents ud ctx plan []) ≠ [] := by
      intro hcon
      exact hne (List.map_eq_nil_iff.mp hcon)
    have hce : (results_of (execute_agents agents ud ctx plan [])).isEmpty = false := by
      cases h : results_of (execute_agents agents ud ctx plan []) with
      | nil => exact absurd h hrs
      | cons a l => rfl
    have hcomp : completedOf (results_of (execute_agents agents ud ctx plan []))
        = results_of (execute_agents agents ud ctx plan []) := by
      unfold completedOf
      exact List.filter_eq_self.mpr fun p hp => by simp [hall p hp]
    unfold determine_fleet_status
    rw [hce]
    simp [hcomp]

/-- A concrete plan containing an unregistered agent id. -/
def wPlanGhost : List String := ["profile_analysis", "resume_parsing"]

/-- Witness for C10: the unregistered `resume_parsing` id is skipped and
the fleet still reports `completed`. -/
theorem c10_witness :
    "resume_parsing" ∈ wPlanGhost
    ∧ wAgents "resume_parsing" = none
    ∧ ("resume_parsing"
          ∉ (results_of (execute_agents wAgents [] [] wPlanGhost [])).map (fun p => p.1)
      ∧ (execute_agents wAgents [] [] wPlanGhost []).map (fun s => s.1)
          = wPlanGhost.filter (fun a => (wAgents a).isSome)
      ∧ determine_fleet_status (results_of (execute_agents wAgents [] [] wPlanGhost []))
          = FleetStatus.completed) :=
  ⟨by decide, rfl,
   c10_unregistered_agent_silently_skipped wAgents [] [] wPlanGhost
     "resume_parsing" (by decide) rfl
     (by
       intro p hp
       simp only [execute_agents, wAgents, wRunA, results_of] at hp
       simp at hp
       rw [hp]
       rfl)
     (List.cons_ne_nil _ _)⟩

/-- `BaseAgent._check_field_availability` (`base_agent.py` lines 157-168):
present, not `None`, and for a string/list/dict not of length 0. -/
def check_field_availability (field_name : String) (user_data : UserData) : Bool :=
  match lookupField user_data field_name with
  | none => false
  | some v =>
    match v with
    | PyVal.vnone => false
    | PyVal.vstr s => !(s.length == 0)
    | PyVal.vlist l => !(l.length == 0)
    | PyVal.vdict d => !(d.length == 0)
    | _ => true

/-- Python `", ".join(xs)`. -/
def joinComma : List String → String
  | [] => ""
  | [s] => s
  | s :: rest => s ++ ", " ++ joinComma rest

theorem mem_infix_joinComma (f : String) :
    ∀ (l : List String), f ∈ l → f.data <:+: (joinComma l).data := by
  intro l
  induction l with
  | nil => intro h; exact absurd h (List.not_mem_nil f)
  | cons s rest ih =>
    intro h
    rcases List.mem_cons.mp h with heq | hmem
    · cases rest with
      | nil =>
        rw [heq]
        exact List.infix_refl _
      | cons b t =>
        refine ⟨[], (", " ++ joinComma (b :: t)).data, ?_⟩
        rw [heq]
        simp [joinComma, String.data_append]
    · cases rest with
      | nil => exact absurd hmem (List.not_mem_nil f)
      | cons b t =>
        obtain ⟨u, w, huw⟩ := ih hmem
        refine ⟨(s ++ ", ").data ++ u, w, ?_⟩
        simp only [List.append_assoc] at huw ⊢
        rw [huw]
        simp [joinComma, String.data_append, List.append_assoc]

/-- The `validated_data` envelope built by `BaseAgent.validate_input`
(`base_agent.py` lines 116-155); `session_metadata` omitted. -/
structure ValidatedData where
  required_data : List (String × PyVal)
  optional_data : List (String × PyVal)
  context_data : UserData
  previous_outputs : List (String × AgentResult)

/-- An agent's static declaration: id, name, and the
`_define_required_inputs` / `_define_optional_inputs` /
`_define_output_schema` values. -/
structure AgentSpecM where
  agent_id : String
  agent_name : String
  required_inputs : List String
  optional_inputs : List String
  output_schema : List String

/-- `BaseAgent.validate_input`: returns
`(is_valid, missing_requirements, validated_data)`. -/
def validate_input (a : AgentSpecM) (inp : AgentInputM) :
    Bool × List String × ValidatedData :=
  let user_data := inp.user_data
  let missing := a.required_inputs.filter
    fun f => !(check_field_availability f user_data)
  let available_optional := (a.optional_inputs.filter
      fun f => check_field_availability f user_data).map
    fun f => (f, (lookupField user_data f).getD PyVal.vnone)
  let required_data := (a.required_inputs.filter
      fun f => check_field_availability f user_data).map
    fun f => (f, (lookupField user_data f).getD PyVal.vnone)
  (missing.isEmpty, missing,
   { required_data := required_data, optional_data := available_optional,
     context_data := inp.conversation_context,
     previous_outputs := inp.previous_agent_outputs })

/-- `BaseAgent._create_failed_result` (`base_agent.py` lines 256-273):
status `FAILED`, empty output, confidence 0, the given error message. -/
def create_failed_result (a : AgentSpecM) (error_message : String) : AgentResult :=
  { agent_id := a.agent_id, agent_name := a.agent_name,
    status := ProcessingStatus.failed, output_data := [],
    confidence_score := 0, error_message := some error_message }

/-- `BaseAgent._calculate_confidence_score` (`base_agent.py` lines
275-294): base 0.7 + 0.05 per optional field + 0.2 * output completeness,
capped at 1.0, rounded to 2 decimals. -/
def calculate_confidence_score (a : AgentSpecM) (vd : ValidatedData)
    (output_data : List (String × PyVal)) : ℚ :=
  let base_confidence : ℚ := 7/10
  let optional_boost : ℚ := (vd.optional_data.length : ℚ) * (5/100)
  let output_completeness : ℚ :=
    (output_data.length : ℚ) / (max a.output_schema.length 1 : ℕ)
  let completeness_boost : ℚ := output_completeness * (2/10)
  roundTo2 (min 1 (base_confidence + optional_boost + completeness_boost))

/-- The core processing logic of a concrete agent
(`_process_core_logic`): it either produces output data or raises
(`Except.error` carries the exception message, e.g. the `ValueError`
raised by `_parse_llm_response` when all parse attempts fail). -/
abbrev CoreLogic := ValidatedData → Except String (List (String × PyVal))

/-- `BaseAgent.execute` (`base_agent.py` lines 174-254) together with a
flag recording whether `_process_core_logic` ran.  Invalid input returns a
failed result without running the core; an exception from the core is
caught by the `except Exception` block at lines 250-254 and converted to a
failed result with message `"Processing error: ..."`. -/
def execute_run (a : AgentSpecM) (core : CoreLogic) (inp : AgentInputM) :
    AgentResult × Bool :=
  let v := validate_input a inp
  if v.1 then
    match core v.2.2 with
    | Except.ok output_data =>
      ({ agent_id := a.agent_id, agent_name := a.agent_name,
         status := ProcessingStatus.completed, output_data := output_data,
         confidence_score := calculate_confidence_score a v.2.2 output_data,
         error_message := none }, true)
    | Except.error e =>
      (create_failed_result a ("Processing error: " ++ e), true)
  else
    (create_failed_result a ("Missing required inputs: " ++ joinComma v.2.1), false)

/-- `BaseAgent.execute` seen at the exception level: an `Except.error`
value would model an exception escaping `execute`.  Because the Python
method wraps its whole body in `try ... except Exception` and returns a
failed `AgentResult` from the handler, the embedding always returns
`Except.ok`. -/
def execute_except (a : AgentSpecM) (core : CoreLogic) (inp : AgentInputM) :
    Except String AgentResult :=
  Except.ok (execute_run a core inp).1

/-- C4: If a declared required field is missing (absent, `None`, or an
empty string/list/dict), `execute` returns a failed result with confidence
0 whose error message is `"Missing required inputs: ..."` and mentions the
field, and the core logic (prompt + LLM call) is never invoked. -/
theorem c4_missing_required_input (a : AgentSpecM) (core : CoreLogic)
    (inp : AgentInputM) (f : String) (hf : f ∈ a.required_inputs)
    (hmiss : check_field_availability f inp.user_data = false) :
    (execute_run a core inp).1.status = ProcessingStatus.failed
    ∧ (execute_run a core inp).1.confidence_score = 0
    ∧ (execute_run a core inp).2 = false
    ∧ (execute_run a core inp).1.error_message
        = some ("Missing required inputs: "
            ++ joinComma (a.required_inputs.filter
                 fun g => !(check_field_availability g inp.user_data)))
    ∧ ∃ msg, (execute_run a core inp).1.error_message = some msg
        ∧ f.data <:+: msg.data := by
  have hfm : f ∈ a.required_inputs.filter
      fun g => !(check_field_availability g inp.user_data) :=
    List.mem_filter.mpr ⟨hf, by simp [hmiss]⟩
  have hnem : (a.required_inputs.filter
      fun g => !(check_field_availability g inp.user_data)).isEmpty = false := by
    cases h : a.required_inputs.filter
        fun g => !(check_field_availability g inp.user_data) with
    | nil => rw [h] at hfm; exact absurd hfm (List.not_mem_nil f)
    | cons b t => rfl
  have hrun : execute_run a core inp
      = (create_failed_result a ("Missing required inputs: "
          ++ joinComma (a.required_inputs.filter
               fun g => !(check_field_availability g inp.user_data))), false) := by
    unfold execute_run validate_input
    simp [hnem]
  rw [hrun]
  refine ⟨rfl, rfl, rfl, rfl, ?_⟩
  refine ⟨"Missing required inputs: "
    ++ joinComma (a.required_inputs.filter
         fun g => !(check_field_availability g inp.user_data)), rfl, ?_⟩
  obtain ⟨u, w, huw⟩ := mem_infix_joinComma f _ hfm
  exact ⟨"Missing required inputs: ".data ++ u, w, by
    simp only [List.append_assoc] at huw ⊢
    rw [huw]
    simp [String.data_append]⟩

/-- The concrete agent declaration used by witnesses: the profile analysis
agent requires `resume_data`. -/
def wProfileSpec : AgentSpecM :=
  { agent_id := "profile_analysis", agent_name := "Profile Analysis Agent",
    required_inputs := ["resume_data"],
    optional_inputs := ["github_profile", "linkedin_profile"],
    output_schema := ["profile_summary", "key_strengths"] }

/-- A concrete agent input whose `user_data` has an empty-string
`resume_data`, i.e. the required field counts as missing. -/
def wEmptyResumeInput : AgentInputM :=
  { user_data := [("resume_data", PyVal.vstr "")],
    conversation_context := [], previous_agent_outputs := [] }

/-- Witness for C4 at the profile agent with an empty `resume_data`. -/
theorem c4_witness :
    "resume_data" ∈ wProfileSpec.required_inputs
    ∧ check_field_availability "resume_data" wEmptyResumeInput.user_data = false
    ∧ ((execute_run wProfileSpec (fun _ => Except.ok []) wEmptyResumeInput).1.status
          = ProcessingStatus.failed
      ∧ (execute_run wProfileSpec (fun _ => Except.ok []) wEmptyResumeInput).1.confidence_score = 0
      ∧ (execute_run wProfileSpec (fun _ => Except.ok []) wEmptyResumeInput).2 = false
      ∧ (execute_run wProfileSpec (fun _ => Except.ok []) wEmptyResumeInput).1.error_message
          = some ("Missing required inputs: "
              ++ joinComma (wProfileSpec.required_inputs.filter
                   fun g => !(check_field_availability g wEmptyResumeInput.user_data)))
      ∧ ∃ msg, (execute_run wProfileSpec (fun _ => Except.ok []) wEmptyResumeInput).1.error_message
            = some msg ∧ "resume_data".data <:+: msg.data) :=
  ⟨by decide, rfl,
   c4_missing_required_input wProfileSpec (fun _ => Except.ok [])
     wEmptyResumeInput "resume_data" (by decide) rfl⟩

/-- A concrete agent input whose `user_data` satisfies the profile agent's
required inputs. -/
def wValidResumeInput : AgentInputM :=
  { user_data := [("resume_data", PyVal.vstr "B.Tech CSE, two internships")],
    conversation_context := [], previous_agent_outputs := [] }

/-- A core logic that raises the `ValueError` built by
`ProfileAnalysisAgent._parse_llm_response` when direct JSON parsing and
the structured fallback both fail (`profile_analysis_agent.py` lines
505-510). -/
def wParseFailCore : CoreLogic := fun _ =>
  Except.error ("Failed to parse LLM response. JSON error: Expecting value. "
    ++ "Parser error: Invalid json output. Content length: 42 chars")

/-- C5 counterexample: with a core logic that raises a parse error, the
embedded `BaseAgent.execute` does NOT propagate the error — it returns
`Except.ok` with a failed `AgentResult`, because the `except Exception`
block at `base_agent.py` lines 250-254 catches the `ValueError` and
converts it. -/
theorem c5_counterexample :
    execute_except wProfileSpec wParseFailCore wValidResumeInput
      = Except.ok (create_failed_result wProfileSpec
          ("Processing error: "
            ++ ("Failed to parse LLM response. JSON error: Expecting value. "
              ++ "Parser error: Invalid json output. Content length: 42 chars"))) := rfl

/-- C5 as amended: a parse failure raised inside `_process_core_logic` is
the error `execute` receives, but `execute` catches it and returns a failed
`AgentResult` with confidence 0 and error message
`"Processing error: <parse error>"`; no exception leaves `execute`. -/
theorem c5_parse_error_caught_at_execute (a : AgentSpecM) (core : CoreLogic)
    (inp : AgentInputM) (e : String)
    (hvalid : (validate_input a inp).1 = true)
    (hcore : core (validate_input a inp).2.2 = Except.error e) :
    execute_except a core inp
      = Except.ok (create_failed_result a ("Processing error: " ++ e))
    ∧ (create_failed_result a ("Processing error: " ++ e)).status
        = ProcessingStatus.failed
    ∧ (create_failed_result a ("Processing error: " ++ e)).confidence_score = 0 := by
  refine ⟨?_, rfl, rfl⟩
  unfold execute_except execute_run
  simp only [hvalid, hcore, if_true]

/-- Witness for the amended C5 at the profile agent with a valid resume
and a parse-failing core. -/
theorem c5_witness :
    (validate_input wProfileSpec wValidResumeInput).1 = true
    ∧ wParseFailCore (validate_input wProfileSpec wValidResumeInput).2.2
        = Except.error ("Failed to parse LLM response. JSON error: Expecting value. "
            ++ "Parser error: Invalid json output. Content length: 42 chars")
    ∧ (execute_except wProfileSpec wParseFailCore wValidResumeInput
          = Except.ok (create_failed_result wProfileSpec
              ("Processing error: "
                ++ ("Failed to parse LLM response. JSON error: Expecting value. "
                  ++ "Parser error: Invalid json output. Content length: 42 chars")))
      ∧ (create_failed_result wProfileSpec
            ("Processing error: "
              ++ ("Failed to parse LLM response. JSON error: Expecting value. "
                ++ "Parser error: Invalid json output. Content length: 42 chars"))).status
          = ProcessingStatus.failed
      ∧ (create_failed_result wProfileSpec
            ("Processing error: "
              ++ ("Failed to parse LLM response. JSON error: Expecting value. "
                ++ "Parser error: Invalid json output. Content length: 42 chars"))).confidence_score
          = 0) :=
  ⟨rfl, rfl,
   c5_parse_error_caught_at_execute wProfileSpec wParseFailCore
     wValidResumeInput _ rfl rfl⟩

/-- A fleet's static shape: id, name, subclass hooks
(`_validate_fleet_input`, `_create_execution_plan`,
`_generate_fleet_recommendations`) and the registered agents map. -/
structure FleetSpecM where
  fleet_id : String
  fleet_name : String
  validate_fleet_input : UserData → Bool × List String
  create_execution_plan : UserData → List String
  recommend : List (String × AgentResult) → List String
  agents : AgentMap

/-- `FleetResult` from `config/agent_config.py` (wall-clock
`total_processing_time` and the tracing metadata omitted;
`error_message` models `execution_summary["error"]` /
`metadata["failure_reason"]` of the failed path, `none` on the success
path). -/
structure FleetResultM where
  fleet_id : String
  fleet_name : String
  status : FleetStatus
  agent_results : List (String × AgentResult)
  overall_confidence : ℚ
  recommendations : List String
  next_actions : List String
  error_message : Option String

/-- `BaseFleetManager._create_failed_result`
(`base_fleet_manager.py` lines 395-415). -/
def create_failed_fleet_result (fs : FleetSpecM) (error_message : String) :
    FleetResultM :=
  { fleet_id := fs.fleet_id, fleet_name := fs.fleet_name,
    status := FleetStatus.failed, agent_results := [],
    overall_confidence := 0, recommendations := [],
    next_actions := ["Please provide required data and try again"],
    error_message := some error_message }

/-- `BaseFleetManager._generate_next_actions`
(`base_fleet_manager.py` lines 385-393): a fixed list. -/
def generate_next_actions : List String :=
  ["Review the detailed analysis and recommendations",
   "Ask follow-up questions for clarification",
   "Begin implementing suggested improvements"]

/-- `BaseFleetManager.execute_workflow` (`base_fleet_manager.py` lines
98-187), returning the fleet result together with the execution trace (so
that "no agent is executed" is expressible).  A failed fleet-level
validation short-circuits before the plan is even computed. -/
def execute_workflow (fs : FleetSpecM) (ud ctx : UserData) :
    FleetResultM × List (String × List (String × AgentResult) × AgentResult) :=
  let v := fs.validate_fleet_input ud
  if v.1 then
    let plan := fs.create_execution_plan ud
    let tr := execute_agents fs.agents ud ctx plan []
    let rs := results_of tr
    ({ fleet_id := fs.fleet_id, fleet_name := fs.fleet_name,
       status := determine_fleet_status rs, agent_results := rs,
       overall_confidence := calculate_fleet_confidence rs,
       recommendations := fs.recommend rs,
       next_actions := generate_next_actions, error_message := none }, tr)
  else
    (create_failed_fleet_result fs ("Missing required data: " ++ joinComma v.2), [])

/-- C8: When the fleet-level required fields are missing,
`execute_workflow` fails fast: status `failed`, empty `agent_results`,
confidence 0, an error message naming each missing field, and an empty
execution trace (no agent ran). -/
theorem c8_fleet_validation_fails_fast (fs : FleetSpecM) (ud ctx : UserData)
    (hinv : (fs.validate_fleet_input ud).1 = false) :
    (execute_workflow fs ud ctx).1.status = FleetStatus.failed
    ∧ (execute_workflow fs ud ctx).1.agent_results = []
    ∧ (execute_workflow fs ud ctx).1.overall_confidence = 0
    ∧ (execute_workflow fs ud ctx).1.error_message
        = some ("Missing required data: "
            ++ joinComma (fs.validate_fleet_input ud).2)
    ∧ (execute_workflow fs ud ctx).2 = []
    ∧ ∀ f ∈ (fs.validate_fleet_input ud).2,
        f.data <:+: ("Missing required data: "
          ++ joinComma (fs.validate_fleet_input ud).2).data := by
  have hrun : execute_workflow fs ud ctx
      = (create_failed_fleet_result fs ("Missing required data: "
          ++ joinComma (fs.validate_fleet_input ud).2), []) := by
    unfold execute_workflow
    simp [hinv]
  rw [hrun]
  refine ⟨rfl, rfl, rfl, rfl, rfl, ?_⟩
  intro f hf
  obtain ⟨u, w, huw⟩ := mem_infix_joinComma f _ hf
  exact ⟨"Missing required data: ".data ++ u, w, by
    simp only [List.append_assoc] at huw ⊢
    rw [huw]
    simp [String.data_append]⟩

/-- `CollegeStudentFleetManager._validate_fleet_input`
(`college_student_fleet_manager.py` lines 123-158): `resume_data` is the
only required field; it is missing when absent, `None`, or an empty
dict/list (an empty string is NOT checked here, unlike the agent-level
check). -/
def college_validate_fleet_input (user_data : UserData) : Bool × List String :=
  let required_fields := ["resume_data"]
  let missing_required := required_fields.filter fun f =>
    match lookupField user_data f with
    | none => true
    | some PyVal.vnone => true
    | some (PyVal.vlist l) => l.isEmpty
    | some (PyVal.vdict d) => d.isEmpty
    | some _ => false
  (missing_required.isEmpty, missing_required)

/-- Python truthiness (`if user_data.get("resume_data"):`). -/
def pyTruthy : Option PyVal → Bool
  | none => false
  | some PyVal.vnone => false
  | some (PyVal.vbool b) => b
  | some (PyVal.vint n) => !(n == 0)
  | some (PyVal.vstr s) => !(s.length == 0)
  | some (PyVal.vlist l) => !l.isEmpty
  | some (PyVal.vdict d) => !d.isEmpty
  | some PyVal.vother => true

/-- `CollegeStudentFleetManager._create_execution_plan`
(`college_student_fleet_manager.py` lines 160-184). -/
def college_create_execution_plan (user_data : UserData) : List String :=
  let plan : List String :=
    if pyTruthy (lookupField user_data "resume_data")
    then ["profile_analysis"] else []
  let plan := plan ++ ["market_intelligence"]
  let plan := if "profile_analysis" ∈ plan
    then plan ++ ["skill_development_strategist"] else plan
  let plan := if "profile_analysis" ∈ plan ∧ "skill_development_strategist" ∈ plan
    then plan ++ ["career_optimization_planner"] else plan
  let plan := if "profile_analysis" ∈ plan ∧ "career_optimization_planner" ∈ plan
    then plan ++ ["opportunity_matcher"] else plan
  plan

/-- C9: With empty user_data the college fleet's execution plan is exactly
`["market_intelligence"]`: `profile_analysis` and every agent depending on
it are excluded. -/
theorem c9_empty_user_data_plan :
    college_create_execution_plan [] = ["market_intelligence"]
    ∧ "profile_analysis" ∉ college_create_execution_plan []
    ∧ "skill_development_strategist" ∉ college_create_execution_plan []
    ∧ "career_optimization_planner" ∉ college_create_execution_plan []
    ∧ "opportunity_matcher" ∉ college_create_execution_plan [] := by
  refine ⟨rfl, ?_, ?_, ?_, ?_⟩ <;> decide

/-- `CollegeStudentFleetManager._generate_fleet_recommendations` is
rule-based string assembly; the C8 path never reaches it, so witnesses use
an empty stub. -/
def wCollegeFleet : FleetSpecM :=
  { fleet_id := "college_upskilling_fleet",
    fleet_name := "College Student Career Optimization Fleet",
    validate_fleet_input := college_validate_fleet_input,
    create_execution_plan := college_create_execution_plan,
    recommend := fun _ => [],
    agents := wAgents }

/-- Witness for C8: the college fleet with empty user_data fails fast. -/
theorem c8_witness :
    (wCollegeFleet.validate_fleet_input []).1 = false
    ∧ ((execute_workflow wCollegeFleet [] []).1.status = FleetStatus.failed
      ∧ (execute_workflow wCollegeFleet [] []).1.agent_results = []
      ∧ (execute_workflow wCollegeFleet [] []).1.overall_confidence = 0
      ∧ (execute_workflow wCollegeFleet [] []).1.error_message
          = some ("Missing required data: "
              ++ joinComma (wCollegeFleet.validate_fleet_input []).2)
      ∧ (execute_workflow wCollegeFleet [] []).2 = []
      ∧ ∀ f ∈ (wCollegeFleet.validate_fleet_input []).2,
          f.data <:+: ("Missing required data: "
            ++ joinComma (wCollegeFleet.validate_fleet_input []).2).data) :=
  ⟨rfl, c8_fleet_validation_fails_fast wCollegeFleet [] [] rfl⟩

/-- The whitespace set of Python `str.strip()` (ASCII part). -/
def isPyWs (c : Char) : Bool :=
  c == ' ' || c == '\t' || c == '\n' || c == '\r' || c == '\x0b' || c == '\x0c'

/-- Drop a trailing run of `p`-characters. -/
def dropTrail (p : Char → Bool) (l : List Char) : List Char :=
  (l.reverse.dropWhile p).reverse

/-- Python `content.strip()` on character lists. -/
def pyStrip (l : List Char) : List Char :=
  dropTrail isPyWs (l.dropWhile isPyWs)

theorem length_dropWhile_le' (p : Char → Bool) (l : List Char) :
    (l.dropWhile p).length ≤ l.length := by
  induction l with
  | nil => simp
  | cons a t ih =>
    by_cases h : p a
    · simp [List.dropWhile_cons, h]
      omega
    · simp [List.dropWhile_cons, h]

theorem dropWhile_idem (p : Char → Bool) (l : List Char) :
    List.dropWhile p (l.dropWhile p) = l.dropWhile p := by
  induction l with
  | nil => simp
  | cons a t ih =>
    by_cases h : p a <;> simp [List.dropWhile_cons, h, ih]

theorem head_false_of_dropWhile_eq_self (p : Char → Bool) (a : Char)
    (t : List Char) (h : List.dropWhile p (a :: t) = a :: t) : p a = false := by
  by_cases hp : p a
  · rw [List.dropWhile_cons, if_pos hp] at h
    have hlen := congrArg List.length h
    have hle := length_dropWhile_le' p t
    simp at hlen
    omega
  · simpa using hp

theorem dropWhile_eq_self_append (p : Char → Bool) (l r : List Char)
    (h : l.dropWhile p = l) (hne : l ≠ []) :
    List.dropWhile p (l ++ r) = l ++ r := by
  rw [List.dropWhile_append]
  have hie : (l.dropWhile p).isEmpty = false := by
    rw [h]
    cases l with
    | nil => exact absurd rfl hne
    | cons a t => rfl
  rw [hie]
  simp only [Bool.false_eq_true, if_false]
  rw [h]

theorem dropTrail_prefix (p : Char → Bool) (l : List Char) :
    dropTrail p l <+: l := by
  unfold dropTrail
  have hs : l.reverse.dropWhile p <:+ l.reverse := List.dropWhile_suffix p
  have := List.reverse_prefix.mpr hs
  simpa using this

theorem dropWhile_dropTrail_comm (p : Char → Bool) (l : List Char)
    (h : l.dropWhile p = l) :
    List.dropWhile p (dropTrail p l) = dropTrail p l := by
  cases hdt : dropTrail p l with
  | nil => simp
  | cons b t =>
    have hpre : dropTrail p l <+: l := dropTrail_prefix p l
    rw [hdt] at hpre
    obtain ⟨r, hr⟩ := hpre
    have hl : l = b :: (t ++ r) := by rw [← hr]; simp
    have hb : p b = false := by
      apply head_false_of_dropWhile_eq_self p b (t ++ r)
      rw [← hl]
      exact h
    rw [List.dropWhile_cons, hb]
    simp

theorem dropTrail_idem (p : Char → Bool) (l : List Char) :
    dropTrail p (dropTrail p l) = dropTrail p l := by
  unfold dropTrail
  rw [List.reverse_reverse, dropWhile_idem]

theorem pyStrip_idem (l : List Char) : pyStrip (pyStrip l) = pyStrip l := by
  unfold pyStrip
  rw [dropWhile_dropTrail_comm isPyWs _ (dropWhile_idem isPyWs l), dropTrail_idem]

theorem pyStrip_cons_ws (c : Char) (l : List Char) (h : isPyWs c = true) :
    pyStrip (c :: l) = pyStrip l := by
  unfold pyStrip
  rw [List.dropWhile_cons, if_pos h]

theorem pyStrip_concat_ws (l : List Char) (c : Char) (h : isPyWs c = true) :
    pyStrip (l ++ [c]) = pyStrip l := by
  unfold pyStrip
  rw [List.dropWhile_append]
  cases hd : (l.dropWhile isPyWs).isEmpty with
  | true =>
    simp only [if_true]
    have hnil : l.dropWhile isPyWs = [] := by
      cases hx : l.dropWhile isPyWs with
      | nil => rfl
      | cons a t => rw [hx] at hd; simp at hd
    rw [hnil]
    simp [List.dropWhile_cons, h, dropTrail]
  | false =>
    simp only [Bool.false_eq_true, if_false]
    unfold dropTrail
    rw [List.reverse_append]
    simp only [List.reverse_cons, List.reverse_nil, List.nil_append,
      List.singleton_append]
    rw [List.dropWhile_cons, if_pos h]

/-- The fence-stripping prefix of every `_parse_llm_response` in the
repository (`profile_analysis_agent.py` lines 470-481): `strip()`, drop a
leading ```` ```json ```` or ```` ``` ````, drop a trailing ```` ``` ````,
`strip()` again. -/
def stripFences (l : List Char) : List Char :=
  let c := pyStrip l
  let c := if List.isPrefixOf "```json".data c then c.drop 7
           else if List.isPrefixOf "```".data c then c.drop 3
           else c
  let c := if List.isSuffixOf "```".data c then c.take (c.length - 3) else c
  pyStrip c

/-- Wrapping well-formed JSON text in markdown fences, as an LLM would. -/
def wrapFences (l : List Char) : List Char :=
  "```json\n".data ++ l ++ "\n```".data

theorem pyStrip_wrapFences (X : List Char) :
    pyStrip (wrapFences X) = wrapFences X := by
  have h1 : List.dropWhile isPyWs (wrapFences X) = wrapFences X := by
    have : wrapFences X = "```json\n".data ++ (X ++ "\n```".data) := by
      simp [wrapFences]
    rw [this]
    exact dropWhile_eq_self_append _ _ _ (by decide) (by decide)
  have h2 : List.dropWhile isPyWs (wrapFences X).reverse = (wrapFences X).reverse := by
    have : (wrapFences X).reverse
        = "\n```".data.reverse ++ (X.reverse ++ "```json\n".data.reverse) := by
      simp [wrapFences, List.reverse_append]
    rw [this]
    exact dropWhile_eq_self_append _ _ _ (by decide) (by decide)
  unfold pyStrip
  rw [h1]
  unfold dropTrail
  rw [h2, List.reverse_reverse]

theorem stripFences_wrapFences (X : List Char) :
    stripFences (wrapFences X) = pyStrip X := by
  have hpre : List.isPrefixOf "```json".data (wrapFences X) = true := by
    apply List.isPrefixOf_iff_prefix.mpr
    have h1 : "```json".data <+: "```json\n".data := by decide
    have h2 : "```json\n".data <+: wrapFences X := by
      have : wrapFences X = "```json\n".data ++ (X ++ "\n```".data) := by
        simp [wrapFences]
      rw [this]
      exact List.prefix_append _ _
    exact h1.trans h2
  have hdrop : (wrapFences X).drop 7 = '\n' :: (X ++ "\n```".data) := by
    have : wrapFences X = "```json\n".data ++ (X ++ "\n```".data) := by
      simp [wrapFences]
    rw [this, List.drop_append_eq_append_drop]
    simp
  have hsuf : List.isSuffixOf "```".data ('\n' :: (X ++ "\n```".data)) = true := by
    apply List.isSuffixOf_iff_suffix.mpr
    have h1 : "```".data <:+ "\n```".data := by decide
    have h2 : "\n```".data <:+ '\n' :: (X ++ "\n```".data) := by
      have : '\n' :: (X ++ "\n```".data) = ('\n' :: X) ++ "\n```".data := by simp
      rw [this]
      exact List.suffix_append _ _
    exact h1.trans h2
  have htake : ('\n' :: (X ++ "\n```".data)).take
      (('\n' :: (X ++ "\n```".data)).length - 3) = ('\n' :: X) ++ ['\n'] := by
    have hform : '\n' :: (X ++ "\n```".data) = ('\n' :: X) ++ "\n```".data := by simp
    have hlen4 : ("\n```".data).length = 4 := rfl
    have hlen : ('\n' :: (X ++ "\n```".data)).length - 3 = ('\n' :: X).length + 1 := by
      simp only [List.length_cons, List.length_append, hlen4]
      omega
    rw [hlen, hform, List.take_append_eq_append_take,
      List.take_of_length_le (Nat.le_succ _)]
    have h1 : ('\n' :: X).length + 1 - ('\n' :: X).length = 1 := by omega
    rw [h1]
    rfl
  unfold stripFences
  rw [pyStrip_wrapFences]
  simp only [hpre, hdrop, hsuf, htake, eq_self_iff_true, if_true]
  have hsh : ('\n' :: X) ++ ['\n'] = '\n' :: (X ++ ['\n']) := by simp
  rw [hsh, pyStrip_cons_ws _ _ (by decide), pyStrip_concat_ws _ _ (by decide)]

/-- A parsed JSON value as produced by Python's `json.loads`.  Numbers are
modelled as integers only: float semantics are outside the embedding, so
the model parser rejects fractional/exponent literals. -/
inductive Json where
  | jnull
  | jbool (b : Bool)
  | jnum (n : Int)
  | jstr (s : List Char)
  | jarr (l : List Json)
  | jobj (l : List (List Char × Json))

/-- JSON insignificant whitespace (the set skipped by Python's decoder). -/
def isJsonWs (c : Char) : Bool :=
  c == ' ' || c == '\t' || c == '\n' || c == '\r'

/-- The two-character JSON string escapes as a lookup table
(`\\uXXXX` unsupported: the model parser rejects it, which only narrows
the domain of modelled texts). -/
def escTable : List (Char × Char) :=
  [('"', '"'), ('\\', '\\'), ('/', '/'), ('n', '\n'),
   ('t', '\t'), ('r', '\r'), ('b', '\x08'), ('f', '\x0c')]

/-- Resolve a string escape character through `escTable`. -/
def escChar (c : Char) : Option Char :=
  (escTable.find? fun p => p.1 == c).map fun p => p.2

/-- Parse the remainder of a JSON string after the opening quote. -/
def parseStringRest : List Char → Option (List Char × List Char)
  | [] => none
  | '"' :: rest => some ([], rest)
  | '\\' :: e :: rest =>
    match escChar e with
    | none => none
    | some c =>
      match parseStringRest rest with
      | none => none
      | some (s, r) => some (c :: s, r)
  | c :: rest =>
    if c.toNat < 32 then none
    else
      match parseStringRest rest with
      | none => none
      | some (s, r) => some (c :: s, r)

/-- Decimal digit accumulator for JSON integers. -/
def parseDigitsAux : List Char → Nat → Nat × List Char
  | [], acc => (acc, [])
  | c :: rest, acc =>
    if c.isDigit then parseDigitsAux rest (acc * 10 + (c.toNat - 48))
    else (acc, c :: rest)

/-- Parse a nonempty run of decimal digits. -/
def parseDigits (l : List Char) : Option (Nat × List Char) :=
  match l with
  | [] => none
  | c :: _ => if c.isDigit then some (parseDigitsAux l 0) else none

/-- True when the remainder starts a fractional or exponent part — a float
literal, which the integer-only model rejects. -/
def isFloatStart : List Char → Bool
  | [] => false
  | c :: _ => c == '.' || c == 'e' || c == 'E'

/-- Parse a JSON integer literal. -/
def parseNumber (l : List Char) : Option (Json × List Char) :=
  match l with
  | '-' :: rest =>
    match parseDigits rest with
    | none => none
    | some (n, r) =>
      if isFloatStart r then none else some (Json.jnum (-(n : Int)), r)
  | _ =>
    match parseDigits l with
    | none => none
    | some (n, r) =>
      if isFloatStart r then none else some (Json.jnum (n : Int), r)

mutual

/-- Recursive-descent JSON value parser with fuel, modelling the grammar
accepted by Python's `json.loads` (integers only; strict: no comments, no
trailing commas). -/
def parseValue : Nat → List Char → Option (Json × List Char)
  | 0, _ => none
  | fuel + 1, l =>
    match List.dropWhile isJsonWs l with
    | [] => none
    | c :: rest =>
      if c == '"' then
        match parseStringRest rest with
        | none => none
        | some (s, r) => some (Json.jstr s, r)
      else if c == '[' then
        match List.dropWhile isJsonWs rest with
        | ']' :: r => some (Json.jarr [], r)
        | _ =>
          match parseArrayItems fuel rest with
          | none => none
          | some (vs, r) => some (Json.jarr vs, r)
      else if c == '{' then
        match List.dropWhile isJsonWs rest with
        | '}' :: r => some (Json.jobj [], r)
        | _ =>
          match parseObjItems fuel rest with
          | none => none
          | some (kvs, r) => some (Json.jobj kvs, r)
      else if c == 't' then
        if List.isPrefixOf "rue".data rest
        then some (Json.jbool true, rest.drop 3) else none
      else if c == 'f' then
        if List.isPrefixOf "alse".data rest
        then some (Json.jbool false, rest.drop 4) else none
      else if c == 'n' then
        if List.isPrefixOf "ull".data rest
        then some (Json.jnull, rest.drop 3) else none
      else parseNumber (c :: rest)

/-- Comma-separated array items up to the closing bracket. -/
def parseArrayItems : Nat → List Char → Option (List Json × List Char)
  | 0, _ => none
  | fuel + 1, l =>
    match parseValue fuel l with
    | none => none
    | some (v, r) =>
      match List.dropWhile isJsonWs r with
      | ',' :: r2 =>
        match parseArrayItems fuel r2 with
        | none => none
        | some (vs, r3) => some (v :: vs, r3)
      | ']' :: r2 => some ([v], r2)
      | _ => none

/-- Comma-separated `"key": value` members up to the closing brace. -/
def parseObjItems : Nat → List Char → Option (List (List Char × Json) × List Char)
  | 0, _ => none
  | fuel + 1, l =>
    match List.dropWhile isJsonWs l with
    | '"' :: r =>
      match parseStringRest r with
      | none => none
      | some (k, r2) =>
        match List.dropWhile isJsonWs r2 with
        | ':' :: r3 =>
          match parseValue fuel r3 with
          | none => none
          | some (v, r4) =>
            match List.dropWhile isJsonWs r4 with
            | ',' :: r5 =>
              match parseObjItems fuel r5 with
              | none => none
              | some (kvs, r6) => some ((k, v) :: kvs, r6)
            | '}' :: r5 => some ([(k, v)], r5)
            | _ => none
        | _ => none
    | _ => none

end

/-- The whole-document parse with an "Extra data" check, applied to the
stripped input.  Stripping first is behaviourally equivalent to
`json.loads`, which skips whitespace at both ends, and in the pipeline the
content is always `.strip()`-ed before `json.loads` anyway. -/
def loadsCore (s : List Char) : Except String Json :=
  match parseValue (s.length + 1) s with
  | some (v, rest) =>
    if (List.dropWhile isJsonWs rest).isEmpty then Except.ok v
    else Except.error "Extra data"
  | none => Except.error "Expecting value"

/-- Model of Python `json.loads` on character lists. -/
def json_loads (l : List Char) : Except String Json :=
  loadsCore (pyStrip l)

/-- C7: Parsing a well-formed JSON text gives the same structure whether
the text is taken directly or first wrapped in ```` ```json ... ``` ````
fences and then fence-stripped the way `_parse_llm_response` does:
`parse(strip_fences(wrap_fences(X))) = parse(X)`. -/
theorem c7_fence_wrap_roundtrip (X : List Char) (v : Json)
    (h : json_loads X = Except.ok v) :
    json_loads (stripFences (wrapFences X)) = Except.ok v := by
  rw [stripFences_wrapFences]
  show loadsCore (pyStrip (pyStrip X)) = Except.ok v
  rw [pyStrip_idem]
  exact h

/-- A concrete well-formed JSON text (braces written via `\x7b`/`\x7d`
escapes). -/
def wJsonText : List Char := "\x7b\"skill\": 1\x7d".data

/-- Witness for C7 at a concrete JSON object. -/
theorem c7_witness :
    json_loads wJsonText = Except.ok (Json.jobj [("skill".data, Json.jnum 1)])
    ∧ json_loads (stripFences (wrapFences wJsonText))
        = Except.ok (Json.jobj [("skill".data, Json.jnum 1)]) :=
  ⟨rfl, c7_fence_wrap_roundtrip wJsonText (Json.jobj [("skill".data, Json.jnum 1)]) rfl⟩

/-- Cut a line at the first `//` (the regex `//.*$` with MULTILINE is
string-oblivious, so this scan is exact). -/
def cutLineComment : List Char → List Char
  | [] => []
  | '/' :: '/' :: _ => []
  | c :: rest => c :: cutLineComment rest

/-- `re.sub(r"//.*$", "", content, flags=re.MULTILINE)`. -/
def removeLineComments (l : List Char) : List Char :=
  List.intercalate ['\n'] ((l.splitOn '\n').map cutLineComment)

/-- Remainder after the nearest `*/`, if any. -/
def findBlockClose : List Char → Option (List Char)
  | [] => none
  | '*' :: '/' :: rest => some rest
  | _ :: rest => findBlockClose rest

/-- `re.sub(r"/\*.*?\*/", "", content, flags=re.DOTALL)`: non-greedy, so
each `/*` is closed by the nearest `*/`; an unclosed `/*` is left alone. -/
def removeBlockComments : Nat → List Char → List Char
  | 0, l => l
  | _ + 1, [] => []
  | fuel + 1, '/' :: '*' :: rest =>
    (match findBlockClose rest with
     | some r => removeBlockComments fuel r
     | none => '/' :: '*' :: rest)
  | fuel + 1, c :: rest => c :: removeBlockComments fuel rest

/-- `re.sub(r",(\s*[}\x7d\]])", r"\1", content)` without the stray brace:
a comma followed by whitespace and a closing brace/bracket loses the
comma; scanning resumes after the bracket (non-overlapping matches). -/
def removeTrailingCommas : Nat → List Char → List Char
  | 0, l => l
  | _ + 1, [] => []
  | fuel + 1, ',' :: rest =>
    (let ws := rest.takeWhile isPyWs
     match rest.drop ws.length with
     | '}' :: r => ws ++ '}' :: removeTrailingCommas fuel r
     | ']' :: r => ws ++ ']' :: removeTrailingCommas fuel r
     | _ => ',' :: removeTrailingCommas fuel rest)
  | fuel + 1, c :: rest => c :: removeTrailingCommas fuel rest

/-- `re.sub(r"\n\s*\n", "\n", content)`: a newline, a greedy whitespace
run that still contains a newline, collapses to one newline; the match
ends at the last newline of the run. -/
def collapseBlankLines : Nat → List Char → List Char
  | 0, l => l
  | _ + 1, [] => []
  | fuel + 1, '\n' :: rest =>
    (let run := rest.takeWhile isPyWs
     if run.contains '\n' then
       let k := run.length - 1 - (run.reverse.findIdx fun c => c == '\n')
       '\n' :: collapseBlankLines fuel (rest.drop (k + 1))
     else '\n' :: collapseBlankLines fuel rest)
  | fuel + 1, c :: rest => c :: collapseBlankLines fuel rest

/-- `SalaryBenchmarkingSubAgent._clean_json_comments`
(`salary_benchmarking_sub_agent.py` lines 208-222): line comments, block
comments, trailing commas, blank-line collapse, strip. -/
def clean_json_comments (l : List Char) : List Char :=
  let c1 := removeLineComments l
  let c2 := removeBlockComments (c1.length + 1) c1
  let c3 := removeTrailingCommas (c2.length + 1) c2
  let c4 := collapseBlankLines (c3.length + 1) c3
  pyStrip c4

/-- A model of the langchain structured output fallback
(`self.output_parser.parse`): it performs strict JSON decoding itself and
raises on malformed content. -/
def pydanticLikeFallback (content : List Char) : Except String Json :=
  match json_loads content with
  | Except.ok v => Except.ok v
  | Except.error e => Except.error ("Invalid json output: " ++ e)

/-- `ProfileAnalysisAgent._parse_llm_response`
(`profile_analysis_agent.py` lines 468-511): strip fences, direct JSON
parse, then the structured fallback — there is NO comment or trailing-comma
removal step.  On double failure it raises the combined `ValueError`. -/
def parse_llm_response_profile (fallback : List Char → Except String Json)
    (raw : List Char) : Except String Json :=
  let content := stripFences raw
  match json_loads content with
  | Except.ok v => Except.ok v
  | Except.error json_error =>
    match fallback content with
    | Except.ok v => Except.ok v
    | Except.error parser_error =>
      Except.error ("Failed to parse LLM response. JSON error: " ++ json_error
        ++ ". Parser error: " ++ parser_error)

/-- `SalaryBenchmarkingSubAgent._parse_llm_response`
(`salary_benchmarking_sub_agent.py` lines 224-264): strip fences, then
ALWAYS `_clean_json_comments` (before the first parse attempt, not as a
retry), then direct JSON parse, then the structured fallback. -/
def parse_llm_response_salary (fallback : List Char → Except String Json)
    (raw : List Char) : Except String Json :=
  let content := stripFences raw
  let content := clean_json_comments content
  match json_loads content with
  | Except.ok v => Except.ok v
  | Except.error json_error =>
    match fallback content with
    | Except.ok v => Except.ok v
    | Except.error parser_error =>
      Except.error ("Failed to parse salary benchmarking response. JSON error: "
        ++ json_error ++ ". Parser error: " ++ parser_error)

/-- Malformed JSON with a `//` comment line and a trailing comma (braces
written via `\x7b`/`\x7d` escapes). -/
def wMalformedJson : List Char :=
  "\x7b\n  \"skill\": \"python\", // primary skill\n  \"level\": 3,\n\x7d".data

/-- C6 counterexample: the profile analysis agent's parser does NOT
successfully parse malformed JSON containing a trailing comma and a `//`
comment — it has no comment-removal retry, so with a strict structured
fallback the parse fails outright. -/
theorem c6_counterexample :
    (parse_llm_response_profile pydanticLikeFallback wMalformedJson).isOk = false := by
  rfl

/-- C6 as amended: only the salary benchmarking sub-agent's parser removes
`//` and `/* */` comments and trailing commas, and it does so
unconditionally before the first parse attempt rather than as a retry on
failure; for that parser, malformed JSON with a trailing comma and a `//`
comment line parses successfully (whatever the structured fallback would
do).  The profile analysis agent's parser has no such step. -/
theorem c6_salary_cleans_before_parse
    (fallback : List Char → Except String Json) :
    parse_llm_response_salary fallback wMalformedJson
      = Except.ok (Json.jobj
          [("skill".data, Json.jstr "python".data),
           ("level".data, Json.jnum 3)]) := by
  rfl

end VC
